import Mathlib

/-!
Verification of the redcached daemon, a memcached-protocol front end that
persists data in a redis backend.  The development shallowly embeds the two
source files: the command handlers together with the TTL translator
(`expirationParser`), and the per-connection serve loop (`Client.Serve`).

Conventions of the embedding:

* Instants and durations are integers counting nanoseconds, mirroring
  `time.Time` and `time.Duration`; `second` is `time.Second`.  The current
  wall-clock instant read by `time.Now()` is threaded explicitly as the
  `now` field of the backend environment.
* The redis client (an external collaborator) is modelled as a
  deterministic key-value store plus a fault schedule: each backend call
  consumes one slot of the schedule and fails with the recorded error
  message when that slot is `some e`; an exhausted schedule means the call
  succeeds.  Every call is also recorded in a trace, so theorems can state
  exactly which backend operations a handler performed and with which
  arguments.
* Byte payloads ([]byte) are modelled as `String`; Go error values are
  modelled as their message strings.
-/

/-- One second, in nanoseconds (`time.Second`). -/
def second : Int := 1000000000

/-- The `ttl` struct of the source: a duration in nanoseconds plus the two
flags `unlimited` and `past`. -/
structure ttl where
  secs : Int := 0
  unlimited : Bool := false
  past : Bool := false
deriving DecidableEq

/-- Embedding of `expirationParser(t int64) (ttl, error)`.  `now` is the
instant returned by `time.Now()` inside the function, in nanoseconds since
the Unix epoch; `time.Unix(t, 0).Sub(now)` is exact integer subtraction. -/
def expirationParser (t : Int) (now : Int) : Except String ttl :=
  if t == 0 then
    Except.ok { unlimited := true }
  else if t > 2592000 then
    let expire_at := t * second
    let secs := expire_at - now
    if secs ≤ 0 then
      Except.ok { secs := secs, past := true }
    else
      Except.ok { secs := secs }
  else if t < 0 then
    Except.error "Expiration cannot be negative"
  else
    Except.ok { secs := t * second }

/-- One backend entry: the stored byte value and its expiry (`none` means
the key never expires; `some d` records the duration handed to the store). -/
structure Entry where
  value : String
  expiry : Option Int
deriving DecidableEq

/-- The backend key space: an association list from key to entry. -/
abbrev Store := List (String × Entry)

/-- Lookup of a key in the store. -/
def storeLookup : Store → String → Option Entry
  | [], _ => none
  | (k, e) :: rest, key => if k == key then some e else storeLookup rest key

/-- Unconditional write of a key (redis SET). -/
def storeSet : Store → String → Entry → Store
  | [], key, e => [(key, e)]
  | (k, v) :: rest, key, e =>
    if k == key then (key, e) :: rest else (k, v) :: storeSet rest key e

/-- Overwrite the expiry of an existing key (redis EXPIRE). -/
def storeExpire : Store → String → Int → Store
  | [], _, _ => []
  | (k, v) :: rest, key, d =>
    if k == key then (k, { v with expiry := some d }) :: rest
    else (k, v) :: storeExpire rest key d

/-- Removal of a key (redis DEL). -/
def storeDel : Store → String → Store
  | [], _ => []
  | (k, v) :: rest, key => if k == key then rest else (k, v) :: storeDel rest key

/-- The vocabulary of backend calls the handlers can make, with their
arguments; used to record the call trace. -/
inductive BCall where
  | get (k : String)
  | set (k v : String) (d : Int)
  | setNX (k v : String) (d : Int)
  | del (k : String)
  | existsKey (k : String)
  | incrBy (k : String) (n : Int)
  | decrBy (k : String) (n : Int)
  | expire (k : String) (d : Int)
  | flushAll
deriving DecidableEq

/-- The backend environment threaded through every handler: the store, the
fault schedule, the call trace and the wall-clock instant. -/
structure BEnv where
  store : Store := []
  faults : List (Option String) := []
  trace : List BCall := []
  now : Int := 0
deriving DecidableEq

/-- Consume one slot of the fault schedule. -/
def popFault (env : BEnv) : Option String × BEnv :=
  match env.faults with
  | [] => (none, env)
  | f :: rest => (f, { env with faults := rest })

/-- Record a backend call in the trace and consume one fault slot. -/
def bCallRun (c : BCall) (env : BEnv) : Option String × BEnv :=
  popFault { env with trace := env.trace ++ [c] }

/-- Duration-to-expiry conversion of the redis client: a zero duration
means no expiry, anything else is recorded as is. -/
def expiryOfDur (d : Int) : Option Int :=
  if d == 0 then none else some d

/-- Modelled redis `Get`: a missing key is reported as `Except.ok none`
(the handler sees `redis.Nil`). -/
def bGet (k : String) (env : BEnv) : Except String (Option String) × BEnv :=
  match bCallRun (BCall.get k) env with
  | (some e, env1) => (Except.error e, env1)
  | (none, env1) =>
    (Except.ok ((storeLookup env1.store k).map (fun en => en.value)), env1)

/-- Modelled redis `Set` with a duration. -/
def bSet (k v : String) (d : Int) (env : BEnv) : Except String Unit × BEnv :=
  match bCallRun (BCall.set k v d) env with
  | (some e, env1) => (Except.error e, env1)
  | (none, env1) =>
    (Except.ok (), { env1 with store := storeSet env1.store k ⟨v, expiryOfDur d⟩ })

/-- Modelled redis `SetNX`: stores only when the key is absent and reports
whether it stored. -/
def bSetNX (k v : String) (d : Int) (env : BEnv) : Except String Bool × BEnv :=
  match bCallRun (BCall.setNX k v d) env with
  | (some e, env1) => (Except.error e, env1)
  | (none, env1) =>
    match storeLookup env1.store k with
    | some _ => (Except.ok false, env1)
    | none =>
      (Except.ok true, { env1 with store := storeSet env1.store k ⟨v, expiryOfDur d⟩ })

/-- Modelled redis `Del` on one key: reports the number of keys removed. -/
def bDel (k : String) (env : BEnv) : Except String Int × BEnv :=
  match bCallRun (BCall.del k) env with
  | (some e, env1) => (Except.error e, env1)
  | (none, env1) =>
    match storeLookup env1.store k with
    | some _ => (Except.ok 1, { env1 with store := storeDel env1.store k })
    | none => (Except.ok 0, env1)

/-- Modelled redis `Exists`. -/
def bExists (k : String) (env : BEnv) : Except String Bool × BEnv :=
  match bCallRun (BCall.existsKey k) env with
  | (some e, env1) => (Except.error e, env1)
  | (none, env1) => (Except.ok (storeLookup env1.store k).isSome, env1)

/-- Decimal digit run to a natural number; fails on a non-digit. -/
def parseNatAux : List Char → Nat → Option Nat
  | [], acc => some acc
  | c :: rest, acc =>
    if c.isDigit then parseNatAux rest (acc * 10 + (c.toNat - 48)) else none

/-- Decimal integer parse used by the modelled redis INCRBY/DECRBY: redis
rejects values that are not integer strings. -/
def parseIntStr (s : String) : Option Int :=
  match s.data with
  | [] => none
  | '-' :: rest =>
    if rest = [] then none else (parseNatAux rest 0).map (fun n => -(n : Int))
  | l => (parseNatAux l 0).map (fun n => (n : Int))

/-- Modelled redis `IncrBy`: a missing key is auto-created as zero before
the increment (the redis semantics the INCR handler must suppress); a
non-integer stored value is an error. -/
def bIncrBy (k : String) (n : Int) (env : BEnv) : Except String Int × BEnv :=
  match bCallRun (BCall.incrBy k n) env with
  | (some e, env1) => (Except.error e, env1)
  | (none, env1) =>
    match storeLookup env1.store k with
    | none =>
      (Except.ok n, { env1 with store := storeSet env1.store k ⟨toString n, none⟩ })
    | some en =>
      match parseIntStr en.value with
      | none => (Except.error "value is not an integer or out of range", env1)
      | some i =>
        (Except.ok (i + n),
         { env1 with store := storeSet env1.store k ⟨toString (i + n), en.expiry⟩ })

/-- Modelled redis `DecrBy`: mirror image of `bIncrBy`. -/
def bDecrBy (k : String) (n : Int) (env : BEnv) : Except String Int × BEnv :=
  match bCallRun (BCall.decrBy k n) env with
  | (some e, env1) => (Except.error e, env1)
  | (none, env1) =>
    match storeLookup env1.store k with
    | none =>
      (Except.ok (-n), { env1 with store := storeSet env1.store k ⟨toString (-n), none⟩ })
    | some en =>
      match parseIntStr en.value with
      | none => (Except.error "value is not an integer or out of range", env1)
      | some i =>
        (Except.ok (i - n),
         { env1 with store := storeSet env1.store k ⟨toString (i - n), en.expiry⟩ })

/-- Modelled redis `Expire`: overwrites the expiry of an existing key and
reports whether the key existed. -/
def bExpire (k : String) (d : Int) (env : BEnv) : Except String Bool × BEnv :=
  match bCallRun (BCall.expire k d) env with
  | (some e, env1) => (Except.error e, env1)
  | (none, env1) =>
    match storeLookup env1.store k with
    | some _ => (Except.ok true, { env1 with store := storeExpire env1.store k d })
    | none => (Except.ok false, env1)

/-- Modelled redis `FlushAll`. -/
def bFlushAll (env : BEnv) : Except String Unit × BEnv :=
  match bCallRun BCall.flushAll env with
  | (some e, env1) => (Except.error e, env1)
  | (none, env1) => (Except.ok (), { env1 with store := [] })

/-- Modelled from the spec: `protocol.McValue` (the protocol package is
repository code absent from src); one value entry of a GET response, as
built by the handlers: key, flags string, payload bytes. -/
structure McValue where
  key : String
  flags : String
  data : String
deriving DecidableEq

/-- Modelled from the spec: `protocol.McResponse` (protocol package absent
from src); a status line plus the ordered value entries. -/
structure McResponse where
  Response : String := ""
  Values : List McValue := []
deriving DecidableEq

/-- Modelled from the spec: `protocol.McRequest` (protocol package absent
from src); the fields are exactly those the two source files read. -/
structure McRequest where
  Command : String := ""
  Keys : List String := []
  Key : String := ""
  Value : String := ""
  Exptime : Int := 0
  Increment : Int := 0
  Noreply : Bool := false
deriving DecidableEq

/-- The `HandlerFn` signature: the Go handler mutates the response in
place and returns an error, so the embedding returns the optional error
message, the updated response and the updated backend environment. -/
abbrev HandlerFn := McRequest → McResponse → BEnv → Option String × McResponse × BEnv

/-- The loop body of `GetHandler` over the remaining keys. -/
def getLoop : List String → McResponse → BEnv → Option String × McResponse × BEnv
  | [], res, env => (none, { res with Response := "END" }, env)
  | key :: rest, res, env =>
    match bGet key env with
    | (Except.error e, env1) => (some e, res, env1)
    | (Except.ok none, env1) => getLoop rest res env1
    | (Except.ok (some v), env1) =>
      getLoop rest { res with Values := res.Values ++ [⟨key, "0", v⟩] } env1

/-- Embedding of `GetHandler`. -/
def GetHandler : HandlerFn := fun req res env => getLoop req.Keys res env

/-- Embedding of `SetHandler`.  Note that on the already-expired path the
result of `backend.Expire` is discarded, exactly as in the source. -/
def SetHandler : HandlerFn := fun req res env =>
  match expirationParser req.Exptime env.now with
  | Except.error e => (some e, res, env)
  | Except.ok exp =>
    if exp.past then
      (none, { res with Response := "STORED" }, (bExpire req.Key exp.secs env).2)
    else
      match bSet req.Key req.Value exp.secs env with
      | (Except.error e, env1) => (some e, res, env1)
      | (Except.ok _, env1) => (none, { res with Response := "STORED" }, env1)

/-- Embedding of `AddHandler`. -/
def AddHandler : HandlerFn := fun req res env =>
  match expirationParser req.Exptime env.now with
  | Except.error e => (some e, res, env)
  | Except.ok exp =>
    match bSetNX req.Key req.Value exp.secs env with
    | (Except.error e, env1) => (some e, res, env1)
    | (Except.ok b, env1) =>
      (none, { res with Response := if b then "STORED" else "NOT_STORED" }, env1)

/-- Embedding of `DeleteHandler`. -/
def DeleteHandler : HandlerFn := fun req res env =>
  match bDel req.Key env with
  | (Except.error e, env1) => (some e, res, env1)
  | (Except.ok count, env1) =>
    (none, { res with Response := if count > 0 then "DELETED" else "NOT_FOUND" }, env1)

/-- Embedding of `IncrHandler`.  The source never inspects the error of
`backend.Exists`; it reads `exists.Val()`, which is `false` whenever the
call failed, so a failed existence check is reported as NOT_FOUND. -/
def IncrHandler : HandlerFn := fun req res env =>
  match bExists req.Key env with
  | (r, env1) =>
    let existsVal := match r with
      | Except.ok b => b
      | Except.error _ => false
    if !existsVal then
      (none, { res with Response := "NOT_FOUND" }, env1)
    else
      match bIncrBy req.Key req.Increment env1 with
      | (Except.error e, env2) => (some e, res, env2)
      | (Except.ok v, env2) => (none, { res with Response := toString v }, env2)

/-- Embedding of `DecrHandler`, mirror image of `IncrHandler`. -/
def DecrHandler : HandlerFn := fun req res env =>
  match bExists req.Key env with
  | (r, env1) =>
    let existsVal := match r with
      | Except.ok b => b
      | Except.error _ => false
    if !existsVal then
      (none, { res with Response := "NOT_FOUND" }, env1)
    else
      match bDecrBy req.Key req.Increment env1 with
      | (Except.error e, env2) => (some e, res, env2)
      | (Except.ok v, env2) => (none, { res with Response := toString v }, env2)

/-- Embedding of `FlushAllHandler`. -/
def FlushAllHandler : HandlerFn := fun _ res env =>
  match bFlushAll env with
  | (Except.error e, env1) => (some e, res, env1)
  | (Except.ok _, env1) => (none, { res with Response := "OK" }, env1)

/-- Embedding of `VersionHandler`. -/
def VersionHandler : HandlerFn := fun _ res env =>
  (none, { res with Response := "VERSION redcached-0.1" }, env)

/-- Modelled from the spec: the dispatch-table wiring (`Server.methods`,
built in repository code absent from src); lower-cased command names
mapped to the handlers, per the command grammar of the spec. -/
def methods : List (String × HandlerFn) :=
  [("get", GetHandler), ("set", SetHandler), ("add", AddHandler),
   ("delete", DeleteHandler), ("incr", IncrHandler), ("decr", DecrHandler),
   ("flush_all", FlushAllHandler), ("version", VersionHandler)]

/-- Embedding of `strings.ToLower` on the command names used here. -/
def toLowerStr (s : String) : String := ⟨s.data.map Char.toLower⟩

/-- Modelled from the spec: the outcome alphabet of `protocol.ReadRequest`
(protocol package absent from src), in the priority order the serve loop
checks it: a recoverable protocol error, end of stream, any other fatal
error, or a decoded request. -/
inductive DecodeResult where
  | protoErr (msg : String)
  | eofSig
  | fatal (msg : String)
  | req (r : McRequest)
deriving DecidableEq

/-- One write the serve loop performs on the connection: either the
CLIENT_ERROR line for a protocol error, or an encoded response. -/
inductive WriteEvent where
  | clientError (msg : String)
  | response (r : McResponse)
deriving DecidableEq

/-- How the serve loop came to return (equivalently, why the deferred
close of the connection ran).  `inputExhausted` is an artefact of feeding
the loop a finite script of decode outcomes: the loop is still running. -/
inductive ServeExit where
  | eofExit
  | quitExit
  | fatalExit (e : String)
  | inputExhausted
deriving DecidableEq

/-- Embedding of `Client.Serve`: the loop consumes a script of decode
outcomes and produces the ordered writes, the exit cause and the final
backend environment. -/
def serve (m : List (String × HandlerFn)) :
    List DecodeResult → BEnv → List WriteEvent × ServeExit × BEnv
  | [], env => ([], ServeExit.inputExhausted, env)
  | DecodeResult.protoErr msg :: rest, env =>
    let tail := serve m rest env
    (WriteEvent.clientError msg :: tail.1, tail.2.1, tail.2.2)
  | DecodeResult.eofSig :: _, env => ([], ServeExit.eofExit, env)
  | DecodeResult.fatal e :: _, env => ([], ServeExit.fatalExit e, env)
  | DecodeResult.req r :: rest, env =>
    if toLowerStr r.Command == "quit" then
      ([], ServeExit.quitExit, env)
    else
      match List.lookup (toLowerStr r.Command) m with
      | some fn =>
        let out := fn r {} env
        let res1 := match out.1 with
          | some e => { out.2.1 with Response := "SERVER_ERROR " ++ e }
          | none => out.2.1
        let tail := serve m rest out.2.2
        ((if r.Noreply then [] else [WriteEvent.response res1]) ++ tail.1,
         tail.2.1, tail.2.2)
      | none =>
        let res1 : McResponse :=
          { Response := "ERROR not implemented cmd \x27" ++ toLowerStr r.Command ++ "\x27 in handler" }
        let tail := serve m rest env
        (WriteEvent.response res1 :: tail.1, tail.2.1, tail.2.2)

/-- The value entries a fault-free GET over the given keys appends: one
entry per present key, in request order, with the fixed flags constant. -/
def gotValues (st : Store) : List String → List McValue
  | [] => []
  | k :: rest =>
    match storeLookup st k with
    | none => gotValues st rest
    | some en => ⟨k, "0", en.value⟩ :: gotValues st rest

/-! ### Small-step lemmas for the modelled backend calls -/

theorem bCallRun_nil (c : BCall) (env : BEnv) (h : env.faults = []) :
    bCallRun c env = (none, { env with trace := env.trace ++ [c] }) := by
  simp [bCallRun, popFault, h]

theorem bCallRun_cons (c : BCall) (env : BEnv) (f : Option String)
    (fs : List (Option String)) (h : env.faults = f :: fs) :
    bCallRun c env = (f, { env with faults := fs, trace := env.trace ++ [c] }) := by
  simp [bCallRun, popFault, h]

theorem bGet_nofault (k : String) (env : BEnv) (h : env.faults = []) :
    bGet k env =
      (Except.ok ((storeLookup env.store k).map (fun en => en.value)),
       { env with trace := env.trace ++ [BCall.get k] }) := by
  simp [bGet, bCallRun_nil _ _ h]

theorem bGet_step (k : String) (env : BEnv) (fs : List (Option String))
    (h : env.faults = none :: fs) :
    bGet k env =
      (Except.ok ((storeLookup env.store k).map (fun en => en.value)),
       { env with faults := fs, trace := env.trace ++ [BCall.get k] }) := by
  simp [bGet, bCallRun_cons _ _ _ _ h]

theorem bGet_fault (k e : String) (env : BEnv) (fs : List (Option String))
    (h : env.faults = some e :: fs) :
    bGet k env =
      (Except.error e, { env with faults := fs, trace := env.trace ++ [BCall.get k] }) := by
  simp [bGet, bCallRun_cons _ _ _ _ h]

theorem bSet_nofault (k v : String) (d : Int) (env : BEnv) (h : env.faults = []) :
    bSet k v d env =
      (Except.ok (),
       { env with store := storeSet env.store k ⟨v, expiryOfDur d⟩,
                  trace := env.trace ++ [BCall.set k v d] }) := by
  simp [bSet, bCallRun_nil _ _ h]

theorem bSet_fault (k v : String) (d : Int) (e : String) (env : BEnv)
    (fs : List (Option String)) (h : env.faults = some e :: fs) :
    bSet k v d env =
      (Except.error e, { env with faults := fs, trace := env.trace ++ [BCall.set k v d] }) := by
  simp [bSet, bCallRun_cons _ _ _ _ h]

theorem bSetNX_nofault (k v : String) (d : Int) (env : BEnv) (h : env.faults = []) :
    bSetNX k v d env =
      (Except.ok (storeLookup env.store k).isNone,
       { env with
           store := if (storeLookup env.store k).isSome then env.store
                    else storeSet env.store k ⟨v, expiryOfDur d⟩,
           trace := env.trace ++ [BCall.setNX k v d] }) := by
  simp only [bSetNX, bCallRun_nil _ _ h]
  cases hk : storeLookup env.store k <;> simp [hk]

theorem bSetNX_fault (k v : String) (d : Int) (e : String) (env : BEnv)
    (fs : List (Option String)) (h : env.faults = some e :: fs) :
    bSetNX k v d env =
      (Except.error e, { env with faults := fs, trace := env.trace ++ [BCall.setNX k v d] }) := by
  simp [bSetNX, bCallRun_cons _ _ _ _ h]

theorem bDel_fault (k e : String) (env : BEnv) (fs : List (Option String))
    (h : env.faults = some e :: fs) :
    bDel k env =
      (Except.error e, { env with faults := fs, trace := env.trace ++ [BCall.del k] }) := by
  simp [bDel, bCallRun_cons _ _ _ _ h]

theorem bExists_nofault (k : String) (env : BEnv) (h : env.faults = []) :
    bExists k env =
      (Except.ok (storeLookup env.store k).isSome,
       { env with trace := env.trace ++ [BCall.existsKey k] }) := by
  simp [bExists, bCallRun_nil _ _ h]

theorem bExists_step (k : String) (env : BEnv) (fs : List (Option String))
    (h : env.faults = none :: fs) :
    bExists k env =
      (Except.ok (storeLookup env.store k).isSome,
       { env with faults := fs, trace := env.trace ++ [BCall.existsKey k] }) := by
  simp [bExists, bCallRun_cons _ _ _ _ h]

theorem bExists_fault (k e : String) (env : BEnv) (fs : List (Option String))
    (h : env.faults = some e :: fs) :
    bExists k env =
      (Except.error e, { env with faults := fs, trace := env.trace ++ [BCall.existsKey k] }) := by
  simp [bExists, bCallRun_cons _ _ _ _ h]

theorem bIncrBy_fault (k : String) (n : Int) (e : String) (env : BEnv)
    (fs : List (Option String)) (h : env.faults = some e :: fs) :
    bIncrBy k n env =
      (Except.error e, { env with faults := fs, trace := env.trace ++ [BCall.incrBy k n] }) := by
  simp [bIncrBy, bCallRun_cons _ _ _ _ h]

theorem bDecrBy_fault (k : String) (n : Int) (e : String) (env : BEnv)
    (fs : List (Option String)) (h : env.faults = some e :: fs) :
    bDecrBy k n env =
      (Except.error e, { env with faults := fs, trace := env.trace ++ [BCall.decrBy k n] }) := by
  simp [bDecrBy, bCallRun_cons _ _ _ _ h]

theorem storeExpire_absent (st : Store) (k : String) (d : Int)
    (h : storeLookup st k = none) : storeExpire st k d = st := by
  induction st with
  | nil => rfl
  | cons p rest ih =>
    obtain ⟨k1, v⟩ := p
    by_cases hk : (k1 == k) = true
    · simp [storeLookup, hk] at h
    · simp only [storeLookup, hk] at h
      simp [storeExpire, hk, ih h]

theorem bExpire_nofault (k : String) (d : Int) (env : BEnv) (h : env.faults = []) :
    bExpire k d env =
      (Except.ok (storeLookup env.store k).isSome,
       { env with store := storeExpire env.store k d,
                  trace := env.trace ++ [BCall.expire k d] }) := by
  simp only [bExpire, bCallRun_nil _ _ h]
  cases hk : storeLookup env.store k with
  | none => simp [hk, storeExpire_absent _ _ d hk]
  | some en => simp [hk]

theorem bExpire_fault (k : String) (d : Int) (e : String) (env : BEnv)
    (fs : List (Option String)) (h : env.faults = some e :: fs) :
    bExpire k d env =
      (Except.error e, { env with faults := fs, trace := env.trace ++ [BCall.expire k d] }) := by
  simp [bExpire, bCallRun_cons _ _ _ _ h]

theorem bFlushAll_fault (e : String) (env : BEnv) (fs : List (Option String))
    (h : env.faults = some e :: fs) :
    bFlushAll env =
      (Except.error e, { env with faults := fs, trace := env.trace ++ [BCall.flushAll] }) := by
  simp [bFlushAll, bCallRun_cons _ _ _ _ h]

/-! ### C1 and C10: the TTL translator -/

/-- C1: for every expiration input and every instant, the translator
returns unlimited with no duration at zero, the fixed negative-expiration
error below zero, the exact gap to the absolute instant with the past flag
exactly on non-positive gaps above the 30-day threshold, and exactly the
input in seconds otherwise. -/
theorem expirationParser_cases (t now : Int) :
    (t = 0 → expirationParser t now =
      Except.ok { secs := 0, unlimited := true, past := false }) ∧
    (t < 0 → expirationParser t now = Except.error "Expiration cannot be negative") ∧
    (t > 2592000 → expirationParser t now =
      Except.ok { secs := t * second - now, unlimited := false,
                  past := decide (t * second - now ≤ 0) }) ∧
    (0 < t → t ≤ 2592000 → expirationParser t now =
      Except.ok { secs := t * second, unlimited := false, past := false }) := by
  refine ⟨?_, ?_, ?_, ?_⟩
  · intro h; subst h; rfl
  · intro h
    have h1 : t ≠ 0 := by omega
    have h2 : ¬ t > 2592000 := by omega
    simp [expirationParser, h1, h2, h]
  · intro h
    have h1 : t ≠ 0 := by omega
    simp only [expirationParser, beq_iff_eq, h1, if_false, if_pos h]
    by_cases hp : t * second - now ≤ 0 <;> simp [hp]
  · intro h0 h1
    have h2 : t ≠ 0 := by omega
    have h3 : ¬ t > 2592000 := by omega
    have h4 : ¬ t < 0 := by omega
    simp [expirationParser, h2, h3, h4]

theorem expirationParser_cases_witness :
    expirationParser 100 0 =
      Except.ok { secs := 100 * second, unlimited := false, past := false } :=
  (expirationParser_cases 100 0).2.2.2 (by decide) (by decide)

/-- C10: the translator ignores the clock on every input at or below the
30-day threshold: its result is the same at any two instants. -/
theorem expirationParser_now_independent (t now1 now2 : Int) (h : t ≤ 2592000) :
    expirationParser t now1 = expirationParser t now2 := by
  have h2 : ¬ t > 2592000 := by omega
  by_cases h0 : t = 0
  · subst h0; rfl
  · simp [expirationParser, h0, h2]

theorem expirationParser_now_independent_witness :
    expirationParser 100 5 = expirationParser 100 999999 :=
  expirationParser_now_independent 100 5 999999 (by decide)

/-! ### C2: the SET handler -/

/-- C2: a SET whose translated expiration is already expired does not
store the value but instead issues an expiry call carrying the
non-positive duration and reports STORED; otherwise it stores the
key and value with the computed duration (a zero duration meaning no
expiry) and reports STORED; a translation error aborts with that error
and no backend call. -/
theorem SetHandler_spec (req : McRequest) (res : McResponse) (env : BEnv)
    (hf : env.faults = []) :
    (∀ e, expirationParser req.Exptime env.now = Except.error e →
       SetHandler req res env = (some e, res, env)) ∧
    (∀ exp, expirationParser req.Exptime env.now = Except.ok exp → exp.past = true →
       SetHandler req res env =
         (none, { res with Response := "STORED" },
          { env with store := storeExpire env.store req.Key exp.secs,
                     trace := env.trace ++ [BCall.expire req.Key exp.secs] })) ∧
    (∀ exp, expirationParser req.Exptime env.now = Except.ok exp → exp.past = false →
       SetHandler req res env =
         (none, { res with Response := "STORED" },
          { env with store := storeSet env.store req.Key ⟨req.Value, expiryOfDur exp.secs⟩,
                     trace := env.trace ++ [BCall.set req.Key req.Value exp.secs] })) := by
  refine ⟨?_, ?_, ?_⟩
  · intro e h
    simp [SetHandler, h]
  · intro exp h hp
    simp [SetHandler, h, hp, bExpire_nofault _ _ _ hf]
  · intro exp h hp
    simp [SetHandler, h, hp, bSet_nofault _ _ _ _ hf]

theorem SetHandler_spec_witness :
    SetHandler { Command := "set", Key := "k", Value := "v", Exptime := -5 } {} {} =
      (some "Expiration cannot be negative", {}, {}) :=
  (SetHandler_spec _ {} {} rfl).1 "Expiration cannot be negative" rfl

/-! ### C5: INCR and DECR on a missing key -/

/-- C5: when the key is absent, INCR and DECR report NOT_FOUND, make no
mutating backend call (only the existence check appears in the trace) and
leave the whole store untouched, suppressing the auto-create-as-zero
semantics of the backend increment. -/
theorem IncrDecr_missing_key (req : McRequest) (res : McResponse) (env : BEnv)
    (hf : env.faults = []) (hk : storeLookup env.store req.Key = none) :
    IncrHandler req res env =
      (none, { res with Response := "NOT_FOUND" },
       { env with trace := env.trace ++ [BCall.existsKey req.Key] }) ∧
    DecrHandler req res env =
      (none, { res with Response := "NOT_FOUND" },
       { env with trace := env.trace ++ [BCall.existsKey req.Key] }) := by
  constructor <;>
    simp [IncrHandler, DecrHandler, bExists_nofault _ _ hf, hk]

theorem IncrDecr_missing_key_witness :
    IncrHandler { Command := "incr", Key := "k", Increment := 4 } {} {} =
      (none, { Response := "NOT_FOUND" }, { trace := [BCall.existsKey "k"] }) :=
  (IncrDecr_missing_key { Command := "incr", Key := "k", Increment := 4 } {} {} rfl rfl).1

/-! ### C9: the ADD handler -/

/-- C9: ADD hands the translated duration straight to the set-if-absent
call for every successfully translated expiration, with no already-expired
special case (the trace records the setNX call with exactly `exp.secs`,
past or not), and reports STORED exactly when the key was newly created,
NOT_STORED when it already existed. -/
theorem AddHandler_spec (req : McRequest) (res : McResponse) (env : BEnv) (exp : ttl)
    (hf : env.faults = [])
    (h : expirationParser req.Exptime env.now = Except.ok exp) :
    AddHandler req res env =
      (none,
       { res with Response := if (storeLookup env.store req.Key).isSome then "NOT_STORED"
                              else "STORED" },
       { env with store := if (storeLookup env.store req.Key).isSome then env.store
                           else storeSet env.store req.Key ⟨req.Value, expiryOfDur exp.secs⟩,
                  trace := env.trace ++ [BCall.setNX req.Key req.Value exp.secs] }) := by
  simp only [AddHandler, h, bSetNX_nofault _ _ _ _ hf]
  cases hk : storeLookup env.store req.Key <;> simp [hk]

theorem AddHandler_spec_witness :
    AddHandler { Command := "add", Key := "k", Value := "v", Exptime := 2592001 } {}
        { now := 2592002 * second } =
      (none, { Response := "STORED" },
       { store := [("k", ⟨"v", some (2592001 * second - 2592002 * second)⟩)],
         trace := [BCall.setNX "k" "v" (2592001 * second - 2592002 * second)],
         now := 2592002 * second }) :=
  AddHandler_spec { Command := "add", Key := "k", Value := "v", Exptime := 2592001 } {}
    { now := 2592002 * second }
    { secs := 2592001 * second - 2592002 * second, past := true } rfl rfl

/-! ### C4: the GET handler -/

theorem getLoop_nofault (keys : List String) :
    ∀ (res : McResponse) (env : BEnv), env.faults = [] →
      getLoop keys res env =
        (none,
         { res with Values := res.Values ++ gotValues env.store keys,
                    Response := "END" },
         { env with trace := env.trace ++ keys.map BCall.get }) := by
  induction keys with
  | nil =>
    intro res env hf
    simp [getLoop, gotValues]
  | cons k rest ih =>
    intro res env hf
    cases hk : storeLookup env.store k with
    | none =>
      simp only [getLoop, bGet_nofault k env hf, hk, Option.map_none']
      rw [ih res { env with trace := env.trace ++ [BCall.get k] } hf]
      simp [gotValues, hk, List.append_assoc]
    | some en =>
      simp only [getLoop, bGet_nofault k env hf, hk, Option.map_some']
      rw [ih { res with Values := res.Values ++ [⟨k, "0", en.value⟩] }
          { env with trace := env.trace ++ [BCall.get k] } hf]
      simp [gotValues, hk, List.append_assoc]

theorem getLoop_fault (i : Nat) :
    ∀ (keys : List String) (res : McResponse) (env : BEnv) (e : String)
      (fs : List (Option String)),
      env.faults = List.replicate i none ++ some e :: fs → i < keys.length →
      getLoop keys res env =
        (some e,
         { res with Values := res.Values ++ gotValues env.store (keys.take i) },
         { env with faults := fs,
                    trace := env.trace ++ (keys.take (i + 1)).map BCall.get }) := by
  induction i with
  | zero =>
    intro keys res env e fs hf hi
    cases keys with
    | nil => simp at hi
    | cons k rest =>
      simp only [List.replicate, List.nil_append] at hf
      simp [getLoop, bGet_fault k e env fs hf, gotValues]
  | succ j ih =>
    intro keys res env e fs hf hi
    cases keys with
    | nil => simp at hi
    | cons k rest =>
      have hf1 : env.faults = none :: (List.replicate j none ++ some e :: fs) := by
        simpa [List.replicate] using hf
      have hi1 : j < rest.length := by simpa using hi
      cases hk : storeLookup env.store k with
      | none =>
        simp only [getLoop, bGet_step k env _ hf1, hk, Option.map_none']
        rw [ih rest res _ e fs rfl hi1]
        simp [gotValues, hk, List.append_assoc]
      | some en =>
        simp only [getLoop, bGet_step k env _ hf1, hk, Option.map_some']
        rw [ih rest { res with Values := res.Values ++ [⟨k, "0", en.value⟩] } _ e fs rfl hi1]
        simp [gotValues, hk, List.append_assoc]

/-- C4: a fault-free GET walks the keys in request order (the trace lists
one fetch per key, in order), silently skips absent keys, appends one
value entry with the fixed flags constant per present key, and finally
sets the status line to the END marker; when the fetch of the key at
index i fails, the entries of the first i keys stay appended, no further
key is fetched, and the error is returned as the handler error. -/
theorem GetHandler_spec (req : McRequest) (res : McResponse) (env : BEnv) :
    (env.faults = [] →
      GetHandler req res env =
        (none,
         { res with Values := res.Values ++ gotValues env.store req.Keys,
                    Response := "END" },
         { env with trace := env.trace ++ req.Keys.map BCall.get })) ∧
    (∀ i e fs, env.faults = List.replicate i none ++ some e :: fs →
      i < req.Keys.length →
      GetHandler req res env =
        (some e,
         { res with Values := res.Values ++ gotValues env.store (req.Keys.take i) },
         { env with faults := fs,
                    trace := env.trace ++ (req.Keys.take (i + 1)).map BCall.get })) :=
  ⟨fun hf => getLoop_nofault req.Keys res env hf,
   fun i e fs hf hi => getLoop_fault i req.Keys res env e fs hf hi⟩

theorem GetHandler_spec_witness :
    GetHandler { Command := "get", Keys := ["A", "B", "C"] } {}
        { store := [("A", ⟨"1", none⟩), ("C", ⟨"3", none⟩)] } =
      (none,
       { Response := "END", Values := [⟨"A", "0", "1"⟩, ⟨"C", "0", "3"⟩] },
       { store := [("A", ⟨"1", none⟩), ("C", ⟨"3", none⟩)],
         trace := [BCall.get "A", BCall.get "B", BCall.get "C"] }) :=
  (GetHandler_spec { Command := "get", Keys := ["A", "B", "C"] } {}
    { store := [("A", ⟨"1", none⟩), ("C", ⟨"3", none⟩)] }).1 rfl

/-! ### The serve loop: C6, C7, C8 -/

theorem methods_lookup_elim (c : String) (fn : HandlerFn)
    (h : List.lookup c methods = some fn) :
    fn = GetHandler ∨ fn = SetHandler ∨ fn = AddHandler ∨ fn = DeleteHandler ∨
    fn = IncrHandler ∨ fn = DecrHandler ∨ fn = FlushAllHandler ∨ fn = VersionHandler := by
  simp only [methods, List.lookup] at h
  repeat' split at h
  all_goals simp_all

theorem methods_lookup_quit : List.lookup "quit" methods = none := by
  simp [methods, List.lookup]

/-- C6: a dispatched request with the no-reply flag set still runs its
handler with exactly the backend effects of the same request without the
flag (the two handler runs coincide, errors included), and the serve loop
writes nothing for it, continuing directly with the environment the
handler produced. -/
theorem serve_noreply (req : McRequest) (rest : List DecodeResult) (env : BEnv)
    (fn : HandlerFn) (h : List.lookup (toLowerStr req.Command) methods = some fn)
    (hn : req.Noreply = true) :
    fn req {} env = fn { req with Noreply := false } {} env ∧
    serve methods (DecodeResult.req req :: rest) env =
      serve methods rest (fn req {} env).2.2 := by
  have hq : (toLowerStr req.Command == "quit") = false := by
    cases hcq : toLowerStr req.Command == "quit" with
    | false => rfl
    | true =>
      rw [eq_of_beq hcq, methods_lookup_quit] at h
      cases h
  constructor
  · rcases methods_lookup_elim _ _ h with h1 | h1 | h1 | h1 | h1 | h1 | h1 | h1 <;>
      subst h1 <;> rfl
  · simp [serve, hq, h, hn]

theorem serve_noreply_witness :
    IncrHandler { Command := "incr", Key := "k", Increment := 2, Noreply := true } {} {} =
      IncrHandler { Command := "incr", Key := "k", Increment := 2, Noreply := false } {} {} :=
  (serve_noreply { Command := "incr", Key := "k", Increment := 2, Noreply := true }
    [] {} IncrHandler rfl rfl).1

/-- C7: a decoded request whose lower-cased command is not quit and is
missing from the dispatch table makes the loop write — unconditionally,
whatever the no-reply flag says — a response whose status line reports the
command as unimplemented, and the loop continues with the backend
environment completely unchanged. -/
theorem serve_unknown_command (m : List (String × HandlerFn)) (req : McRequest)
    (rest : List DecodeResult) (env : BEnv)
    (hq : toLowerStr req.Command ≠ "quit")
    (h : List.lookup (toLowerStr req.Command) m = none) :
    serve m (DecodeResult.req req :: rest) env =
      (WriteEvent.response
          { Response := "ERROR not implemented cmd \x27" ++ toLowerStr req.Command ++ "\x27 in handler",
            Values := [] } :: (serve m rest env).1,
       (serve m rest env).2.1, (serve m rest env).2.2) := by
  have hq2 : (toLowerStr req.Command == "quit") = false := by
    simpa using hq
  simp [serve, hq2, h]

theorem serve_unknown_command_witness :
    serve methods [DecodeResult.req { Command := "STATS", Noreply := true }] {} =
      ([WriteEvent.response
          { Response := "ERROR not implemented cmd \x27stats\x27 in handler", Values := [] }],
       ServeExit.inputExhausted, {}) :=
  serve_unknown_command methods { Command := "STATS", Noreply := true } [] {}
    (by decide) rfl

/-- C8: one serve-loop step terminates the loop exactly on the three
terminating decode outcomes — end of stream (clean eof exit, no error),
a fatal decode error (surfaced in the exit), or a request whose
lower-cased command is quit (no write) — while a recoverable protocol
error writes a client-error line and continues, and a non-quit request
never decides termination itself: the exit cause always comes from the
remaining input. -/
theorem serve_termination (m : List (String × HandlerFn)) (rest : List DecodeResult)
    (env : BEnv) :
    (∀ msg, serve m (DecodeResult.protoErr msg :: rest) env =
      (WriteEvent.clientError msg :: (serve m rest env).1,
       (serve m rest env).2.1, (serve m rest env).2.2)) ∧
    serve m (DecodeResult.eofSig :: rest) env = ([], ServeExit.eofExit, env) ∧
    (∀ e, serve m (DecodeResult.fatal e :: rest) env = ([], ServeExit.fatalExit e, env)) ∧
    (∀ r : McRequest, toLowerStr r.Command = "quit" →
      serve m (DecodeResult.req r :: rest) env = ([], ServeExit.quitExit, env)) ∧
    (∀ r : McRequest, toLowerStr r.Command ≠ "quit" →
      ∃ env2, (serve m (DecodeResult.req r :: rest) env).2.1 = (serve m rest env2).2.1) := by
  refine ⟨fun msg => by simp [serve], by simp [serve], fun e => by simp [serve], ?_, ?_⟩
  · intro r hr
    have hq : (toLowerStr r.Command == "quit") = true := by simpa using hr
    simp [serve, hq]
  · intro r hr
    have hq : (toLowerStr r.Command == "quit") = false := by simpa using hr
    cases hl : List.lookup (toLowerStr r.Command) m with
    | none => exact ⟨env, by simp [serve, hq, hl]⟩
    | some fn => exact ⟨(fn r {} env).2.2, by simp [serve, hq, hl]⟩

theorem serve_termination_witness :
    serve methods [DecodeResult.req { Command := "QUIT" }] {} =
      ([], ServeExit.quitExit, {}) :=
  (serve_termination methods [] {}).2.2.2.1 { Command := "QUIT" } (by decide)

/-! ### C3: backend failure propagation -/

/-- C3 counterexample: the key is present and the backend existence check
of INCR fails with the error boom, yet the handler returns no error at
all — it reports NOT_FOUND and the serve loop would see a successful
handler run — so this backend failure is not propagated unchanged. -/
theorem incr_exists_failure_swallowed :
    IncrHandler { Command := "incr", Key := "k", Increment := 1 } {}
        { store := [("k", ⟨"5", none⟩)], faults := [some "boom"] } =
      (none, { Response := "NOT_FOUND" },
       { store := [("k", ⟨"5", none⟩)], trace := [BCall.existsKey "k"] }) := rfl

/-- C3 amended: a backend failure is propagated unchanged as a handler
error from every backend call whose result the handlers inspect — the
per-key fetch of GET, the store call of SET, the set-if-absent of ADD,
DELETE, the increment and decrement calls of INCR and DECR, and
FLUSH_ALL — and the serve loop surfaces such a handler error as a
server-error status line while continuing with the remaining input; but
the expiry call on the already-expired SET path and the existence check
of INCR and DECR ignore backend failures: SET still reports STORED and
INCR and DECR report NOT_FOUND as if the key were absent. -/
theorem backend_error_policy (e : String) (req : McRequest) (res : McResponse)
    (env : BEnv) (hf : env.faults = [some e]) :
    (req.Keys ≠ [] → (GetHandler req res env).1 = some e) ∧
    (∀ exp, expirationParser req.Exptime env.now = Except.ok exp → exp.past = false →
      (SetHandler req res env).1 = some e) ∧
    (∀ exp, expirationParser req.Exptime env.now = Except.ok exp →
      (AddHandler req res env).1 = some e) ∧
    (DeleteHandler req res env).1 = some e ∧
    (FlushAllHandler req res env).1 = some e ∧
    (∀ env2 : BEnv, env2.faults = [none, some e] →
      (storeLookup env2.store req.Key).isSome = true →
      (IncrHandler req res env2).1 = some e) ∧
    (∀ env2 : BEnv, env2.faults = [none, some e] →
      (storeLookup env2.store req.Key).isSome = true →
      (DecrHandler req res env2).1 = some e) ∧
    (∀ exp, expirationParser req.Exptime env.now = Except.ok exp → exp.past = true →
      SetHandler req res env =
        (none, { res with Response := "STORED" },
         { env with faults := [], trace := env.trace ++ [BCall.expire req.Key exp.secs] })) ∧
    (IncrHandler req res env =
      (none, { res with Response := "NOT_FOUND" },
       { env with faults := [], trace := env.trace ++ [BCall.existsKey req.Key] })) ∧
    (DecrHandler req res env =
      (none, { res with Response := "NOT_FOUND" },
       { env with faults := [], trace := env.trace ++ [BCall.existsKey req.Key] })) ∧
    (∀ (m : List (String × HandlerFn)) (fn : HandlerFn) (rest : List DecodeResult)
       (r : McRequest) (env2 env3 : BEnv) (res2 : McResponse),
      toLowerStr r.Command ≠ "quit" →
      List.lookup (toLowerStr r.Command) m = some fn →
      fn r {} env2 = (some e, res2, env3) → r.Noreply = false →
      serve m (DecodeResult.req r :: rest) env2 =
        (WriteEvent.response { res2 with Response := "SERVER_ERROR " ++ e } ::
           (serve m rest env3).1,
         (serve m rest env3).2.1, (serve m rest env3).2.2)) := by
  refine ⟨?_, ?_, ?_, ?_, ?_, ?_, ?_, ?_, ?_, ?_, ?_⟩
  · intro hkeys
    cases hks : req.Keys with
    | nil => exact absurd hks hkeys
    | cons k ks =>
      simp [GetHandler, hks, getLoop, bGet_fault k e env _ hf]
  · intro exp h hp
    simp [SetHandler, h, hp, bSet_fault _ _ _ e env _ hf]
  · intro exp h
    simp [AddHandler, h, bSetNX_fault _ _ _ e env _ hf]
  · simp [DeleteHandler, bDel_fault _ e env _ hf]
  · simp [FlushAllHandler, bFlushAll_fault e env _ hf]
  · intro env2 hf2 hk
    have h2 := bIncrBy_fault req.Key req.Increment e
      { env2 with faults := [some e], trace := env2.trace ++ [BCall.existsKey req.Key] } [] rfl
    simp [IncrHandler, bExists_step req.Key env2 [some e] hf2, hk, h2]
  · intro env2 hf2 hk
    have h2 := bDecrBy_fault req.Key req.Increment e
      { env2 with faults := [some e], trace := env2.trace ++ [BCall.existsKey req.Key] } [] rfl
    simp [DecrHandler, bExists_step req.Key env2 [some e] hf2, hk, h2]
  · intro exp h hp
    simp [SetHandler, h, hp, bExpire_fault _ _ e env _ hf]
  · simp [IncrHandler, bExists_fault _ e env _ hf]
  · simp [DecrHandler, bExists_fault _ e env _ hf]
  · intro m fn rest r env2 env3 res2 hq hl hfn hnr
    have hq2 : (toLowerStr r.Command == "quit") = false := by simpa using hq
    simp [serve, hq2, hl, hfn, hnr]

theorem backend_error_policy_witness :
    (DeleteHandler { Command := "delete", Key := "k" } {} { faults := [some "boom"] }).1 =
      some "boom" :=
  (backend_error_policy "boom" { Command := "delete", Key := "k" } {}
    { faults := [some "boom"] } rfl).2.2.2.1
